import Mathlib

/-!
# Verification of the kilocode keybinding resolver and Claude Code stream adapter

This file gives a shallow embedding, in Lean 4, of the two utility chains of
the repository:

* the keybinding label resolver (`src/utils/keybindings.ts` and
  `src/utils/vscode-config.ts`): user-override lookup, extension-default
  fallback, and platform-specific pretty printing of raw key strings;
* the Claude Code provider wrapper (provider detection from a local settings
  file and the streaming response adapter), whose implementation file is not
  part of this slice and is therefore modelled from the specification and the
  behaviour pinned by its test suite.

Effects are made explicit: the Node `process.platform` global becomes a
`platform : String` parameter, file reads become `Except`/`Option` inputs, and
the async generator of the stream adapter becomes a total function from the
list of upstream messages to `Except error (List chunk)`.
-/

deriving instance DecidableEq for Except

namespace Kilocode

/-! ## String helpers shared by both subsystems

The JavaScript string operations used by the source (`toLowerCase`,
`toUpperCase`, `trim`, `split`, `includes`, string indexing) are modelled at
the `List Char` level so that every definition reduces by computation.  The
case conversions are the basic-latin ones, which is what all inputs handled
by this code use. -/

/-- JavaScript-style containment test: `sub` occurs as a contiguous substring
of `s` (models `String.prototype.includes`). -/
def strContains (s sub : String) : Bool :=
  decide (sub.data <:+: s.data)

/-- Models an ASCII `String.prototype.toLowerCase`. -/
def strToLower (s : String) : String :=
  ⟨s.data.map Char.toLower⟩

/-- Models an ASCII `String.prototype.toUpperCase`. -/
def strToUpper (s : String) : String :=
  ⟨s.data.map Char.toUpper⟩

/-- Models `String.prototype.trim`: strip whitespace from both ends. -/
def strTrim (s : String) : String :=
  ⟨((s.data.dropWhile Char.isWhitespace).reverse.dropWhile Char.isWhitespace).reverse⟩

/-- Split a character list at every occurrence of the separator character;
consecutive separators yield empty pieces, exactly as
`String.prototype.split` does with a one-character separator string. -/
def splitOnCharAux (sep : Char) : List Char → List (List Char)
  | [] => [[]]
  | c :: cs =>
    let rest := splitOnCharAux sep cs
    if c = sep then [] :: rest
    else
      match rest with
      | [] => [[c]]
      | piece :: pieces => (c :: piece) :: pieces

/-- Models `String.prototype.split(sep)` for a one-character separator (the source
only ever splits on `" "` and `"+"`). -/
def strSplitOn (s : String) (sep : Char) : List String :=
  (splitOnCharAux sep s.data).map (fun l => ⟨l⟩)

/-- Models `Array.prototype.join(sep)` over strings. -/
def strJoin (sep : String) (pieces : List String) : String :=
  ⟨List.intercalate sep.data (pieces.map String.data)⟩

/-- Models `String.prototype.startsWith`. -/
def strStartsWith (s pre : String) : Bool :=
  decide (pre.data <+: s.data)

/-! ## Keybinding data model (`keybindings.ts`) -/

/-- One rule from a user override file or the extension's declared defaults.
Mirrors the source's `KeybindingEntry` type `{ key?, command?, when?, args? }`
(the `args` payload is irrelevant to every function here and is omitted). -/
structure KeybindingEntry where
  key : Option String := none
  command : Option String := none
  whenClause : Option String := none
deriving DecidableEq, Repr

/-! ## Key token normalization (`normalizeKeyToken`) -/

/-- The macOS modifier display table of `normalizeKeyToken`. -/
def macModifier : String → Option String
  | "cmd" => some "Cmd"
  | "meta" => some "Cmd"
  | "ctrl" => some "Ctrl"
  | "alt" => some "Option"
  | "option" => some "Option"
  | "shift" => some "Shift"
  | _ => none

/-- The Windows/Linux modifier display table of `normalizeKeyToken`. -/
def winLinuxModifier : String → Option String
  | "cmd" => some "Ctrl"
  | "meta" => some "Win"
  | "ctrl" => some "Ctrl"
  | "alt" => some "Alt"
  | "shift" => some "Shift"
  | _ => none

/-- The named special-key display table of `normalizeKeyToken`. -/
def specialKey : String → Option String
  | "left" => some "Left"
  | "right" => some "Right"
  | "up" => some "Up"
  | "down" => some "Down"
  | "home" => some "Home"
  | "end" => some "End"
  | "pageup" => some "PageUp"
  | "pagedown" => some "PageDown"
  | "insert" => some "Insert"
  | "delete" => some "Delete"
  | "backspace" => some "Backspace"
  | "tab" => some "Tab"
  | "enter" => some "Enter"
  | "escape" => some "Escape"
  | "space" => some "Space"
  | _ => none

/-- The regular expression test of the source, `/^f\d{1,2}$/`: an `f` followed
by one or two decimal digits and nothing else. -/
def isFunctionKeyToken (s : String) : Bool :=
  match s.data with
  | 'f' :: ds => decide (1 ≤ ds.length) && decide (ds.length ≤ 2) && ds.all Char.isDigit
  | _ => false

/-- The default branch of `normalizeKeyToken`:
`normalized.charAt(0).toUpperCase() + normalized.slice(1)`. -/
def titleCaseFirst (s : String) : String :=
  match s.data with
  | [] => ""
  | c :: cs => ⟨Char.toUpper c :: cs⟩

/-- The table cascade of `normalizeKeyToken` once the platform's modifier
table has been selected: modifier table, special-key table, function-key
pattern, single-character uppercasing, and finally title case. -/
def normalizeKeyTokenCore (modifierMap : String → Option String) (normalized : String) : String :=
  match modifierMap normalized with
  | some m => m
  | none =>
    match specialKey normalized with
    | some k => k
    | none =>
      if isFunctionKeyToken normalized then strToUpper normalized
      else if normalized.data.length = 1 then strToUpper normalized
      else titleCaseFirst normalized

/-- The function `normalizeKeyToken(token, platform)`: lowercase the token, pick the
platform's modifier table (`darwin` selects the macOS table), and run the
cascade. `process.platform` is threaded explicitly as `platform`. -/
def normalizeKeyToken (token platform : String) : String :=
  if platform == "darwin" then normalizeKeyTokenCore macModifier (strToLower token)
  else normalizeKeyTokenCore winLinuxModifier (strToLower token)

/-- The property names every plain JavaScript object literal inherits from
`Object.prototype`: for these the `in` operator is true even though the
modifier and special-key table literals declare no such own key. -/
def objectProtoKey (s : String) : Bool :=
  s == "constructor" || s == "hasOwnProperty" || s == "isPrototypeOf"
    || s == "propertyIsEnumerable" || s == "toLocaleString" || s == "toString"
    || s == "valueOf" || s == "__proto__" || s == "__defineGetter__"
    || s == "__defineSetter__" || s == "__lookupGetter__" || s == "__lookupSetter__"

/-- What `normalizeKeyToken` actually returns once the JavaScript `in`
membership test is modelled exactly: either a display string, or the
inherited non-string value of `Object.prototype` that `modifierMap[token]`
(or `specialKeys[token]`) evaluates to when `token in map` was satisfied only
through the prototype chain. -/
inductive KeyTokenResult where
  | str (s : String)
  | inherited
deriving DecidableEq, Repr

/-- The table cascade of `normalizeKeyToken` with the exact JavaScript `in`
semantics: `normalized in map` is true when `normalized` is an own key of the
table literal or an inherited `Object.prototype` property name; in the latter
case the indexed read returns the inherited non-string value, and the
function returns it from the table stage without reaching the later
stages. -/
def normalizeKeyTokenJsCore (modifierMap : String → Option String)
    (normalized : String) : KeyTokenResult :=
  if (modifierMap normalized).isSome || objectProtoKey normalized then
    match modifierMap normalized with
    | some m => .str m
    | none => .inherited
  else if (specialKey normalized).isSome || objectProtoKey normalized then
    match specialKey normalized with
    | some k => .str k
    | none => .inherited
  else if isFunctionKeyToken normalized then .str (strToUpper normalized)
  else if normalized.data.length = 1 then .str (strToUpper normalized)
  else .str (titleCaseFirst normalized)

/-- The function `normalizeKeyToken(token, platform)` with the exact
JavaScript `in` semantics of its two table membership tests; away from the
inherited `Object.prototype` property names it agrees with
`normalizeKeyToken` above. -/
def normalizeKeyTokenJs (token platform : String) : KeyTokenResult :=
  if platform == "darwin" then normalizeKeyTokenJsCore macModifier (strToLower token)
  else normalizeKeyTokenJsCore winLinuxModifier (strToLower token)

/-- Whether every character of the string is ASCII; on this range the
modelled case conversions agree with the Unicode-aware JavaScript ones. -/
def isAsciiString (s : String) : Bool :=
  s.data.all (fun c => c.toNat < 128)

/-! ## Key pretty printing (`prettyPrintKey`) -/

/-- Format one chord: split on `+` and normalize every part, joining back
with `+`. -/
def formatChord (chord platform : String) : String :=
  strJoin "+" ((strSplitOn chord '+').map (fun part => normalizeKeyToken part platform))

/-- The function `prettyPrintKey(rawKey, platform)`: split the raw key on spaces into
chords (dropping empty pieces, as `filter(Boolean)` does), format each chord,
and join multiple chords with `", "`; a single chord is returned as is and an
empty chord list yields `""` (the source's `formattedChords[0] || ""`). -/
def prettyPrintKey (rawKey platform : String) : String :=
  let chords := (strSplitOn rawKey ' ').filter (fun c => c ≠ "")
  let formattedChords := chords.map (fun chord => formatChord chord platform)
  if formattedChords.length > 1 then strJoin ", " formattedChords
  else formattedChords.headD ""

/-- The function `getPlatformKeybinding(baseKeybinding)` with `process.platform` threaded
explicitly: it simply delegates to `prettyPrintKey`. -/
def getPlatformKeybinding (baseKeybinding platform : String) : String :=
  prettyPrintKey baseKeybinding platform

/-! ## User keybinding file reading (`vscode-config.ts`)

`readUserKeybindings` touches the host file system through (a) the capability
check `canReadLocalKeybindings()`, (b) the candidate discovery of
`enumerateProfileKeybindings` — a guarded `fs.stat` per candidate at the
existence filter and, when more than one candidate exists, an unguarded
`fs.stat` per candidate inside `Promise.all` for the modification-time sort —
and (c) the per-candidate read-and-parse of `readJSON5File`.  All are
threaded as explicit inputs: the capability check as a `Bool`, and each
candidate file as a record of the outcomes of its two stat calls (the file
can change between them) and of its read attempt.  The unguarded sort-time
stat is the one step whose exception propagates out of the source
function. -/

/-- What one candidate file's raw read yields before `readJSON5File`'s
`catch`: either an exception (unreadable file or a JSON5 parse error), or a
parsed value, which is an array of rules or some non-array value. -/
inductive JsonValue where
  | arr (rules : List KeybindingEntry)
  | other
deriving DecidableEq, Repr

/-- The function `readJSON5File`: any read or parse exception is caught and collapsed to
`null` (`none`); a successful parse is returned as is. -/
def readJSON5File (outcome : Except String JsonValue) : Option JsonValue :=
  match outcome with
  | .error _ => none
  | .ok v => some v

/-- The candidate loop of `readUserKeybindings`: return the first candidate
whose parsed content is an array (`Array.isArray`), skipping `null` and
non-array results; an exhausted list yields `[]`. -/
def firstArrayCandidate : List (Except String JsonValue) → List KeybindingEntry
  | [] => []
  | c :: cs =>
    match readJSON5File c with
    | some (.arr rules) => rules
    | _ => firstArrayCandidate cs

/-- One candidate keybindings file as the host file system presents it to
`enumerateProfileKeybindings`: the guarded `fs.stat` at the existence filter
(`some mtime` when it saw a regular file, `none` when it threw or the path
was not a file), the unguarded `fs.stat` awaited inside `Promise.all` during
the modification-time sort (the file can have disappeared in between), and
the outcome of reading and JSON5-parsing the file. -/
structure CandidateFile where
  path : String := ""
  statAtFilter : Option ℕ := none
  statAtSort : Except String ℕ := .ok 0
  content : Except String JsonValue := .error "unread"
deriving DecidableEq

/-- The `Promise.all` of the sort step of `enumerateProfileKeybindings`: the
unguarded `fs.stat` of every existing candidate; any rejection rejects the
whole step (modelled with the first rejection in list order). -/
def collectSortStats : List CandidateFile → Except String (List (CandidateFile × ℕ))
  | [] => .ok []
  | c :: cs =>
    match c.statAtSort with
    | .error e => .error e
    | .ok m =>
      match collectSortStats cs with
      | .error e => .error e
      | .ok rest => .ok ((c, m) :: rest)

/-- Insertion step of the stable descending sort by modification time. -/
def insertDescByMtime (p : CandidateFile × ℕ) :
    List (CandidateFile × ℕ) → List (CandidateFile × ℕ)
  | [] => [p]
  | q :: qs => if p.2 > q.2 then p :: q :: qs else q :: insertDescByMtime p qs

/-- The `stats.sort((a, b) => b.stat.mtimeMs - a.stat.mtimeMs)` of the
source, modelled as a stable insertion sort by descending modification
time. -/
def sortDescByMtime : List (CandidateFile × ℕ) → List (CandidateFile × ℕ)
  | [] => []
  | p :: ps => insertDescByMtime p (sortDescByMtime ps)

/-- The function `enumerateProfileKeybindings`: filter the candidates through
the guarded existence stat; when more than one exists, re-stat them all
inside `Promise.all` — unguarded, so a single rejection propagates — and
order them by descending modification time. -/
def enumerateProfileKeybindings (cands : List CandidateFile) :
    Except String (List CandidateFile) :=
  let existing := cands.filter (fun c => c.statAtFilter.isSome)
  if existing.length > 1 then
    match collectSortStats existing with
    | .error e => .error e
    | .ok stats => .ok ((sortDescByMtime stats).map Prod.fst)
  else .ok existing

/-- The function `readUserKeybindings()`: an empty rule set when the session
cannot read local keybindings (remote or web host); otherwise the candidates
are discovered and ordered by `enumerateProfileKeybindings` — whose unguarded
sort-time stat can reject, and that rejection propagates out of this function
unhandled — and the first candidate whose content parses to a list is
returned, an exhausted list yielding the empty rule set. -/
def readUserKeybindings (canReadLocal : Bool) (cands : List CandidateFile) :
    Except String (List KeybindingEntry) :=
  if !canReadLocal then .ok []
  else
    match enumerateProfileKeybindings cands with
    | .error e => .error e
    | .ok ordered => .ok (firstArrayCandidate (ordered.map (fun c => c.content)))

/-! ## Keybinding label resolution (`keybindings.ts`) -/

/-- The truthiness test `entry.key && entry.key.trim()` of
`findFirstBindingForCommand`. -/
def keyTruthy (e : KeybindingEntry) : Bool :=
  match e.key with
  | some k => k != "" && strTrim k != ""
  | none => false

/-- The function `findFirstBindingForCommand(entries, commandId)`: the first entry whose
`command` equals the id and whose key is truthy before and after trimming. -/
def findFirstBindingForCommand (entries : List KeybindingEntry) (commandId : String) :
    Option KeybindingEntry :=
  entries.find? (fun e => e.command == some commandId && keyTruthy e)

/-- The observable outcome of `getCurrentKeybindingLabel`: the returned label
(`none` models `undefined`) and whether the `catch` branch emitted its
`console.warn` diagnostic. -/
structure LabelOutcome where
  result : Option String
  warned : Bool
deriving DecidableEq, Repr

/-- The function `getCurrentKeybindingLabel(commandId, context)`.  The `await
readUserKeybindings()` call is threaded as `userRead`: `Except.error` models
the call throwing (the only step of the `try` block that can throw), in which
case the `catch` branch warns and returns `undefined`.  The extension's
contributed default rules are `defaults`, and `process.platform` is
`platform`. -/
def getCurrentKeybindingLabel (userRead : Except String (List KeybindingEntry))
    (defaults : List KeybindingEntry) (commandId platform : String) : LabelOutcome :=
  match userRead with
  | .error _ => ⟨none, true⟩
  | .ok userKeybindings =>
    let userBinding := findFirstBindingForCommand userKeybindings commandId
    let defaultBinding := defaults.find? (fun e => e.command == some commandId)
    let rawKey := ((userBinding.bind (·.key)).or (defaultBinding.bind (·.key))).map strTrim
    match rawKey with
    | none => ⟨none, false⟩
    | some rk => if rk = "" then ⟨none, false⟩ else ⟨some (prettyPrintKey rk platform), false⟩

/-- The function `getKeybindingLabels(commandIds, context)`: the loop that resolves each
command id in order and records `commandId → label` pairs in the result
object, rendered here as the association list built by the loop. -/
def getKeybindingLabels (userRead : Except String (List KeybindingEntry))
    (defaults : List KeybindingEntry) (commandIds : List String) (platform : String) :
    List (String × Option String) :=
  commandIds.map (fun commandId =>
    (commandId, (getCurrentKeybindingLabel userRead defaults commandId platform).result))

/-! ## Claude Code provider wrapper

The implementation file of `ClaudeCodeHandler` is not part of this slice —
only its test suite is.  The definitions below are therefore modelled from
the specification (§4.3, §4.4, §6) and from the concrete behaviour pinned by
the tests, and each doc comment says so. -/

/-- Pricing/capability record of one model (`ProviderModelTable` entries). -/
structure ModelInfo where
  inputPrice : ℚ := 0
  outputPrice : ℚ := 0
  cacheWritesPrice : ℚ := 0
  cacheReadsPrice : ℚ := 0
  contextWindow : ℕ := 200000
  supportsPromptCache : Bool := true
  supportsImages : Bool := false
deriving DecidableEq, Repr

/-- Modelled from the spec: the `env` section of the provider settings file,
`{ ANTHROPIC_BASE_URL?, ANTHROPIC_MODEL? }`. -/
structure EnvSection where
  anthropicBaseUrl : Option String := none
  anthropicModel : Option String := none
deriving DecidableEq, Repr

/-- Modelled from the spec: the provider settings file, a JSON object
optionally containing an `env` section. -/
structure ClaudeSettings where
  env : Option EnvSection := none
deriving DecidableEq, Repr

/-- The three recognized alternative backends. -/
inductive AltProvider where
  | zai
  | qwenCode
  | deepseek
deriving DecidableEq, Repr

/-- Modelled from the spec: `detectProvider` of the missing
`ClaudeCodeHandler` source.  Reads the base-URL field from the settings; no
`env` section or no base URL means no alternative provider; otherwise the
three substrings `"z.ai"`, `"aliyuncs.com"`, `"deepseek.com"` are tested in
that order and the first match wins, with no match falling back to the
primary defaults. -/
def detectProvider (settings : ClaudeSettings) : Option AltProvider :=
  match settings.env with
  | none => none
  | some e =>
    match e.anthropicBaseUrl with
    | none => none
    | some url =>
      if strContains url "z.ai" then some .zai
      else if strContains url "aliyuncs.com" then some .qwenCode
      else if strContains url "deepseek.com" then some .deepseek
      else none

/-- Modelled from the spec: the Z.ai model table, restricted to the entry the
tests pin (`glm-4.5` at 0.6 / 2.2 per million tokens). -/
def zaiModels : List (String × ModelInfo) :=
  [("glm-4.5", { inputPrice := 6/10, outputPrice := 22/10 })]

/-- Modelled from the spec: the Qwen model table, restricted to the entry the
tests pin (`qwen3-coder-plus`, free, one-million-token context window). -/
def qwenModels : List (String × ModelInfo) :=
  [("qwen3-coder-plus", { contextWindow := 1000000 })]

/-- Modelled from the spec: the DeepSeek model table, restricted to the entry
the tests pin (`deepseek-chat` at 0.27 / 1.1, prompt caching supported). -/
def deepseekModels : List (String × ModelInfo) :=
  [("deepseek-chat", { inputPrice := 27/100, outputPrice := 11/10 })]

/-- The fixed primary default model id of the handler. -/
def claudeDefaultModelId : String := "claude-sonnet-4-20250514"

/-- Modelled from the spec: the primary default model record (Claude Sonnet
pricing: 3 in / 15 out / 3.75 cache write / 0.3 cache read per million
tokens, prompt caching supported, images not supported). -/
def claudeDefaultInfo : ModelInfo :=
  { inputPrice := 3
    outputPrice := 15
    cacheWritesPrice := 375/100
    cacheReadsPrice := 3/10 }

/-- Modelled from the spec: the primary (Claude) model table, restricted to
the ids the tests exercise. -/
def claudeModels : List (String × ModelInfo) :=
  [("claude-sonnet-4-20250514", claudeDefaultInfo),
   ("claude-3-5-sonnet-20241022", claudeDefaultInfo)]

/-- The model table of a detected alternative provider. -/
def providerModels : AltProvider → List (String × ModelInfo)
  | .zai => zaiModels
  | .qwenCode => qwenModels
  | .deepseek => deepseekModels

/-- Modelled from the spec: model selection (`getModel`).  With a detected
alternative provider, prefer the settings' explicit model id when it is in
the provider's table, else the table's first key; with no alternative
provider, prefer the caller-supplied id, falling back to the fixed default id
and record when the id is not in the primary table. -/
def getModel (settings : ClaudeSettings) (callerModelId : Option String) :
    String × ModelInfo :=
  match detectProvider settings with
  | some p =>
    let table := providerModels p
    match (settings.env.bind (·.anthropicModel)).bind (fun m => (table.lookup m).map (m, ·)) with
    | some entry => entry
    | none => table.headD (claudeDefaultModelId, claudeDefaultInfo)
  | none =>
    let id := callerModelId.getD claudeDefaultModelId
    match claudeModels.lookup id with
    | some info => (id, info)
    | none => (claudeDefaultModelId, claudeDefaultInfo)

/-! ## Streaming response adapter (`createMessage`)

Modelled from the spec §4.4 and §6: the upstream async generator becomes the
list of messages it yields, and the consuming iteration becomes
`Except String (List ApiChunk)` — `Except.error` models the consumer's pull
rejecting with that error message. -/

/-- Token usage attached to an assistant message; fields the upstream omits
are taken as zero. -/
structure UsageData where
  inputTokens : ℕ := 0
  outputTokens : ℕ := 0
  cacheReadInputTokens : ℕ := 0
  cacheCreationInputTokens : ℕ := 0
deriving DecidableEq, Repr

/-- One content block of an assistant message. -/
inductive ContentBlock where
  | text (s : String)
  | thinking (s : String)
  | redactedThinking
  | toolUse
deriving DecidableEq, Repr

/-- Modelled from the spec: the upstream message shapes — raw text fragments,
the system-init message carrying the `apiKeySource` marker, assistant
messages with content blocks and usage, and the terminal result message
carrying `total_cost_usd`. -/
inductive CCMessage where
  | raw (s : String)
  | systemInit (apiKeySource : String)
  | assistant (content : List ContentBlock) (usage : UsageData)
  | result (totalCostUsd : ℚ)
deriving DecidableEq, Repr

/-- The normalized chunk union produced by the adapter. -/
inductive ApiChunk where
  | text (s : String)
  | reasoning (s : String)
  | usage (inputTokens outputTokens cacheReadTokens cacheWriteTokens : ℕ) (totalCost : ℚ)
deriving DecidableEq, Repr

/-- The fixed error-marker prefix of upstream error texts. -/
def apiErrorMarker : String := "API Error"

/-- The known failure substring that receives a dedicated hint. -/
def invalidModelNameText : String := "Invalid model name"

/-- Modelled from the spec: the localized hint appended to the
invalid-model-name error (the exact localized wording lives in the i18n
system; only its presence matters here). -/
def invalidModelNameHint : String :=
  "The configured model name was rejected by the Claude Code CLI. Check the model setting."

/-- The running accumulator of one stream: the paid/free flag recorded by the
system-init message, the token counters summed across assistant messages, and
the cost reported by a terminal result message, if one arrived. -/
structure StreamState where
  isPaidUsage : Bool := true
  inputTokens : ℕ := 0
  outputTokens : ℕ := 0
  cacheReadTokens : ℕ := 0
  cacheWriteTokens : ℕ := 0
  resultCost : Option ℚ := none
deriving DecidableEq, Repr

/-- The initial accumulator. -/
def initState : StreamState := {}

/-- Modelled from the spec: per-block translation — `text` blocks become text
chunks, `thinking` blocks become reasoning chunks, `redacted_thinking` blocks
become a reasoning chunk with a fixed placeholder, and `tool_use` blocks are
dropped (diagnostic only). -/
def processBlock : ContentBlock → Option ApiChunk
  | .text s => some (.text s)
  | .thinking s => some (.reasoning s)
  | .redactedThinking => some (.reasoning "[Redacted thinking block]")
  | .toolUse => none

/-- Modelled from the spec: error escalation.  When an assistant message's
first content block is text beginning with the error marker, the adapter
raises a fatal error; the known invalid-model-name failure is composed as the
original text plus the localized hint, and any other payload is raised with
the original text.  (The JSON-payload extraction of the source only decides
which composed message is raised; both routes reject the consumer's pull, so
the payload parsing itself is not modelled.) -/
def assistantErrorText (content : List ContentBlock) : Option String :=
  match content with
  | .text s :: _ =>
    if strStartsWith s apiErrorMarker then
      if strContains s invalidModelNameText then some (s ++ "\n" ++ invalidModelNameHint)
      else some s
    else none
  | _ => none

/-- Modelled from the spec: processing of one upstream message — the chunks
it emits and the accumulator update, or the fatal error it raises. -/
def stepMessage (st : StreamState) : CCMessage → Except String (StreamState × List ApiChunk)
  | .raw s => .ok (st, [.text s])
  | .systemInit apiKeySource => .ok ({ st with isPaidUsage := apiKeySource != "none" }, [])
  | .assistant content usage =>
    match assistantErrorText content with
    | some e => .error e
    | none =>
      .ok ({ st with
              inputTokens := st.inputTokens + usage.inputTokens
              outputTokens := st.outputTokens + usage.outputTokens
              cacheReadTokens := st.cacheReadTokens + usage.cacheReadInputTokens
              cacheWriteTokens := st.cacheWriteTokens + usage.cacheCreationInputTokens },
            content.filterMap processBlock)
  | .result totalCostUsd => .ok ({ st with resultCost := some totalCostUsd }, [])

/-- Modelled from the spec: the consuming loop over the upstream messages,
concatenating emitted chunks and threading the accumulator; a fatal error
aborts the iteration. -/
def runStream (st : StreamState) : List CCMessage → Except String (StreamState × List ApiChunk)
  | [] => .ok (st, [])
  | m :: ms =>
    match stepMessage st m with
    | .error e => .error e
    | .ok (st1, chunks) =>
      match runStream st1 ms with
      | .error e => .error e
      | .ok (st2, rest) => .ok (st2, chunks ++ rest)

/-- Cost computed from accumulated tokens and the model's pricing (per
million tokens). -/
def costForTokens (info : ModelInfo) (inTok outTok crTok cwTok : ℕ) : ℚ :=
  (inTok * info.inputPrice + outTok * info.outputPrice
    + crTok * info.cacheReadsPrice + cwTok * info.cacheWritesPrice) / 1000000

/-- Modelled from the spec: the final total cost — the cost reported by the
terminal result message when one arrived, or the cost computed from the
accumulated tokens when the stream ended without one; either is forced to
zero for free/subscription usage. -/
def finalCost (info : ModelInfo) (st : StreamState) : ℚ :=
  match st.resultCost with
  | some c => if st.isPaidUsage then c else 0
  | none =>
    if st.isPaidUsage then
      costForTokens info st.inputTokens st.outputTokens st.cacheReadTokens st.cacheWriteTokens
    else 0

/-- Modelled from the spec: `createMessage` — consume the whole upstream
stream and append, at stream end, the single accumulated usage chunk. -/
def createMessage (info : ModelInfo) (messages : List CCMessage) :
    Except String (List ApiChunk) :=
  match runStream initState messages with
  | .error e => .error e
  | .ok (st, chunks) =>
    .ok (chunks ++ [.usage st.inputTokens st.outputTokens st.cacheReadTokens st.cacheWriteTokens
      (finalCost info st)])

/-! ## Spec-side definitions

These definitions restate, in the words of the specification, the behaviour
claimed for the code; the theorems below compare them with the embedded
source functions. -/

/-- The user-override rule predicate exactly as the spec words it: the rule's
`command` equals the command id and its `key` is non-empty after trimming. -/
def specUserRulePred (commandId : String) (e : KeybindingEntry) : Bool :=
  e.command == some commandId && strTrim (e.key.getD "") != ""

/-- Label resolution as the spec words it: take the first user-override rule
matching `specUserRulePred` and format its trimmed key; only when no such
rule exists, take the first extension-default entry with equal command and
format its trimmed key when that is non-empty; otherwise resolve to
nothing. -/
def resolveLabelSpec (user defaults : List KeybindingEntry)
    (commandId platform : String) : Option String :=
  match user.find? (specUserRulePred commandId) with
  | some u => some (prettyPrintKey (strTrim (u.key.getD "")) platform)
  | none =>
    match defaults.find? (fun e => e.command == some commandId) with
    | some d =>
      match d.key with
      | none => none
      | some k => if strTrim k = "" then none else some (prettyPrintKey (strTrim k) platform)
    | none => none

/-- File discovery as the spec words it: the first candidate, in order, whose
content parses to a list is the override rule set; read failures, parse
failures and non-list values silently move to the next candidate; an
exhausted candidate list yields the empty rule set. -/
def firstParsedListSpec : List (Except String JsonValue) → List KeybindingEntry
  | [] => []
  | .ok (.arr rules) :: _ => rules
  | _ :: cs => firstParsedListSpec cs

/-- The paid/free flag after a message list, as the spec words it: a
system-init message records whether usage is paid (marker field not equal to
the sentinel `"none"`), later init messages overriding earlier ones; the
adapter starts from paid. -/
def computePaid (b : Bool) : List CCMessage → Bool
  | [] => b
  | .systemInit apiKeySource :: ms => computePaid (apiKeySource != "none") ms
  | _ :: ms => computePaid b ms

/-- Input tokens accumulated across all assistant messages of a stream. -/
def sumInputTokens : List CCMessage → ℕ
  | [] => 0
  | .assistant _ u :: ms => u.inputTokens + sumInputTokens ms
  | _ :: ms => sumInputTokens ms

/-- Output tokens accumulated across all assistant messages of a stream. -/
def sumOutputTokens : List CCMessage → ℕ
  | [] => 0
  | .assistant _ u :: ms => u.outputTokens + sumOutputTokens ms
  | _ :: ms => sumOutputTokens ms

/-- Cache-read tokens accumulated across all assistant messages of a
stream. -/
def sumCacheReadTokens : List CCMessage → ℕ
  | [] => 0
  | .assistant _ u :: ms => u.cacheReadInputTokens + sumCacheReadTokens ms
  | _ :: ms => sumCacheReadTokens ms

/-- Cache-write tokens accumulated across all assistant messages of a
stream. -/
def sumCacheWriteTokens : List CCMessage → ℕ
  | [] => 0
  | .assistant _ u :: ms => u.cacheCreationInputTokens + sumCacheWriteTokens ms
  | _ :: ms => sumCacheWriteTokens ms

/-- The cost recorded by the last terminal result message of a list, if
any. -/
def lastResultCost (r : Option ℚ) : List CCMessage → Option ℚ
  | [] => r
  | .result c :: ms => lastResultCost (some c) ms
  | _ :: ms => lastResultCost r ms

/-- Whether a message is the terminal result message. -/
def isResultMsg : CCMessage → Bool
  | .result _ => true
  | _ => false

/-- Whether a chunk is a usage chunk. -/
def isUsageChunk : ApiChunk → Bool
  | .usage .. => true
  | _ => false

/-- Number of usage chunks in a chunk list. -/
def countUsageChunks (cs : List ApiChunk) : ℕ :=
  (cs.filter isUsageChunk).length

/-! ## Sample data (from the repository's test suites) -/

/-- The extension-default rules of the keybinding tests. -/
def sampleDefaults : List KeybindingEntry :=
  [{ key := some "cmd+i", command := some "kilo-code.ghost.promptCodeSuggestion" },
   { key := some "ctrl+shift+g", command := some "kilo-code.ghost.generateSuggestions" }]

/-- The user override rule of the keybinding tests. -/
def sampleUserRules : List KeybindingEntry :=
  [{ key := some "cmd+shift+i", command := some "kilo-code.ghost.promptCodeSuggestion" }]

/-- Two discovered keybindings files that both pass the guarded existence
stat, the profile one being deleted before the unguarded sort-time stat
(the race the mtime sort of vscode-config.ts is exposed to). -/
def raceCandidates : List CandidateFile :=
  [{ path := "User/keybindings.json", statAtFilter := some 100, statAtSort := .ok 100, content := .ok (.arr []) },
   { path := "User/profiles/p1/keybindings.json", statAtFilter := some 200, statAtSort := .error "ENOENT", content := .error "ENOENT" }]

/-- The same two files when nothing changes between the two stats: the
profile file is newer and parses to the sample user rules. -/
def okProfileCandidates : List CandidateFile :=
  [{ path := "User/keybindings.json", statAtFilter := some 100, statAtSort := .ok 100, content := .ok (.arr []) },
   { path := "User/profiles/p1/keybindings.json", statAtFilter := some 200, statAtSort := .ok 200, content := .ok (.arr sampleUserRules) }]

/-- The Z.ai provider settings of the detection tests. -/
def sampleZaiEnv : EnvSection :=
  { anthropicBaseUrl := some "https://api.z.ai/api/anthropic", anthropicModel := some "glm-4.5" }

/-- The settings file of the Z.ai detection tests. -/
def sampleZaiSettings : ClaudeSettings := { env := some sampleZaiEnv }

/-- The paid-usage system-init message of the stream tests. -/
def samplePaidInit : CCMessage := .systemInit "/login managed key"

/-- The subscription-usage system-init message of the stream tests. -/
def sampleFreeInit : CCMessage := .systemInit "none"

/-- The assistant usage payload of the stream tests. -/
def sampleUsageData : UsageData :=
  { inputTokens := 10, outputTokens := 20, cacheReadInputTokens := 5, cacheCreationInputTokens := 3 }

/-- The assistant message of the stream tests. -/
def sampleAssistant : CCMessage := .assistant [.text "Hello there!"] sampleUsageData

/-- The assistant message of the subscription-usage stream test (no cache
fields). -/
def sampleAssistantNoCache : CCMessage :=
  .assistant [.text "Hello there!"] { inputTokens := 10, outputTokens := 20 }

/-! ## Theorems: keybinding formatting -/

/-- The only platform dependence of `normalizeKeyToken` is whether the
platform equals `"darwin"`; every other platform behaves like `"linux"`. -/
theorem normalizeKeyToken_platform_cases (token p : String) :
    normalizeKeyToken token p
      = if p == "darwin" then normalizeKeyToken token "darwin"
        else normalizeKeyToken token "linux" := by
  cases hp : p == "darwin" <;> simp [normalizeKeyToken, hp]

/-- The formatter `prettyPrintKey` inherits the same platform dependence. -/
theorem prettyPrintKey_platform_cases (raw p : String) :
    prettyPrintKey raw p
      = if p == "darwin" then prettyPrintKey raw "darwin"
        else prettyPrintKey raw "linux" := by
  cases hp : p == "darwin" <;>
    simp [prettyPrintKey, formatChord, normalizeKeyToken, hp]

/-- C4: the key-formatting function satisfies
`format("cmd+i","darwin") = "Cmd+I"`, `format("cmd+i","win32") = "Ctrl+I"`,
`format("ctrl+shift+g",p) = "Ctrl+Shift+G"` for every platform `p`, and
`format("ctrl+k ctrl+s",p) = "Ctrl+K, Ctrl+S"` for every platform `p`: tokens
within a chord are joined with `"+"` and chords with `", "`. -/
theorem prettyPrintKey_display_examples :
    prettyPrintKey "cmd+i" "darwin" = "Cmd+I"
    ∧ prettyPrintKey "cmd+i" "win32" = "Ctrl+I"
    ∧ (∀ p : String, prettyPrintKey "ctrl+shift+g" p = "Ctrl+Shift+G")
    ∧ (∀ p : String, prettyPrintKey "ctrl+k ctrl+s" p = "Ctrl+K, Ctrl+S") := by
  refine ⟨by decide, by decide, fun p => ?_, fun p => ?_⟩ <;>
    rw [prettyPrintKey_platform_cases] <;>
    cases p == "darwin" <;> decide

/-- Inherited `Object.prototype` property names are own keys of neither
modifier table. -/
theorem modifier_protoKey_none (s : String) (h : objectProtoKey s = true) :
    macModifier s = none ∧ winLinuxModifier s = none := by
  simp only [objectProtoKey, Bool.or_eq_true, beq_iff_eq] at h
  rcases h with ((((((((((h|h)|h)|h)|h)|h)|h)|h)|h)|h)|h)|h <;> subst h <;> exact ⟨rfl, rfl⟩

/-- Away from the inherited property names, the exact-`in` cascade returns
the display string of the own-key cascade. -/
theorem jsCore_eq_core (modifierMap : String → Option String) (normalized : String)
    (hproto : objectProtoKey normalized = false) :
    normalizeKeyTokenJsCore modifierMap normalized
      = .str (normalizeKeyTokenCore modifierMap normalized) := by
  unfold normalizeKeyTokenJsCore normalizeKeyTokenCore
  rw [hproto]
  cases hm : modifierMap normalized with
  | some m => simp [hm]
  | none =>
    simp only [hm, Option.isSome_none, Bool.or_false, Bool.false_eq_true, if_false]
    cases hs : specialKey normalized with
    | some k => simp [hs]
    | none =>
      simp only [hs, Option.isSome_none, Bool.or_false, Bool.false_eq_true, if_false]
      rw [apply_ite KeyTokenResult.str, apply_ite KeyTokenResult.str]

/-- At an inherited property name that is not an own key, the exact-`in`
cascade leaks the inherited value from the table stage. -/
theorem jsCore_inherited (modifierMap : String → Option String) (normalized : String)
    (hproto : objectProtoKey normalized = true) (hm : modifierMap normalized = none) :
    normalizeKeyTokenJsCore modifierMap normalized = .inherited := by
  simp [normalizeKeyTokenJsCore, hm, hproto]

/-- C10 counterexample: at the token `"constructor"` the JavaScript `in`
membership test is satisfied through the prototype chain, so the source
returns the inherited non-string value from the modifier-map stage — not the
title-case default string the claim's every-token cascade requires; likewise
`"__proto__"` on macOS. -/
theorem normalizeKeyToken_inherited_counterexample :
    normalizeKeyTokenJs "constructor" "linux" = KeyTokenResult.inherited
    ∧ KeyTokenResult.inherited ≠ KeyTokenResult.str (titleCaseFirst (strToLower "constructor"))
    ∧ normalizeKeyTokenJs "__proto__" "darwin" = KeyTokenResult.inherited := by
  refine ⟨by decide, by decide, by decide⟩

/-- C10 (amended): for every ASCII token whose lowercased form is not an
inherited `Object.prototype` property name, key-token normalization returns a
display string and lands in exactly one stage of the cascade — the platform's
modifier table, the special-key table, the function-key pattern,
single-character uppercasing, or the final title-case default; for tokens
whose lowercased form is such an inherited name and not an own table key, the
JavaScript `in` test finds the inherited key and the source returns the
inherited non-string value from the modifier-map stage instead; and
`getPlatformKeybinding` is `prettyPrintKey` of the raw key and the
platform. -/
theorem normalizeKeyToken_cascade_own_keys :
    (∀ token p : String,
      isAsciiString token = true →
      objectProtoKey (strToLower token) = false →
      normalizeKeyTokenJs token p = KeyTokenResult.str (normalizeKeyToken token p)
      ∧ ((∃ m, (if p == "darwin" then macModifier else winLinuxModifier) (strToLower token) = some m
          ∧ normalizeKeyToken token p = m)
      ∨ ((if p == "darwin" then macModifier else winLinuxModifier) (strToLower token) = none
          ∧ ∃ k, specialKey (strToLower token) = some k ∧ normalizeKeyToken token p = k)
      ∨ ((if p == "darwin" then macModifier else winLinuxModifier) (strToLower token) = none
          ∧ specialKey (strToLower token) = none
          ∧ isFunctionKeyToken (strToLower token) = true
          ∧ normalizeKeyToken token p = strToUpper (strToLower token))
      ∨ ((if p == "darwin" then macModifier else winLinuxModifier) (strToLower token) = none
          ∧ specialKey (strToLower token) = none
          ∧ isFunctionKeyToken (strToLower token) = false
          ∧ (strToLower token).data.length = 1
          ∧ normalizeKeyToken token p = strToUpper (strToLower token))
      ∨ ((if p == "darwin" then macModifier else winLinuxModifier) (strToLower token) = none
          ∧ specialKey (strToLower token) = none
          ∧ isFunctionKeyToken (strToLower token) = false
          ∧ (strToLower token).data.length ≠ 1
          ∧ normalizeKeyToken token p = titleCaseFirst (strToLower token))))
    ∧ (∀ token p : String, objectProtoKey (strToLower token) = true →
        normalizeKeyTokenJs token p = KeyTokenResult.inherited)
    ∧ (∀ raw p : String, getPlatformKeybinding raw p = prettyPrintKey raw p) := by
  refine ⟨fun token p _ hproto => ?_, fun token p hproto => ?_, fun raw p => rfl⟩
  · constructor
    · have hjs : normalizeKeyTokenJs token p
          = normalizeKeyTokenJsCore (if p == "darwin" then macModifier else winLinuxModifier)
              (strToLower token) := by
        cases hp : p == "darwin" <;> simp [normalizeKeyTokenJs, hp]
      have hn : normalizeKeyToken token p
          = normalizeKeyTokenCore (if p == "darwin" then macModifier else winLinuxModifier)
              (strToLower token) := by
        cases hp : p == "darwin" <;> simp [normalizeKeyToken, hp]
      rw [hjs, hn]
      exact jsCore_eq_core _ _ hproto
    · have hn : normalizeKeyToken token p
          = normalizeKeyTokenCore (if p == "darwin" then macModifier else winLinuxModifier)
              (strToLower token) := by
        cases hp : p == "darwin" <;> simp [normalizeKeyToken, hp]
      rw [hn]
      set mods := (if p == "darwin" then macModifier else winLinuxModifier) with hmods
      cases hm : mods (strToLower token) with
      | some m => exact Or.inl ⟨m, rfl, by simp [normalizeKeyTokenCore, hm]⟩
      | none =>
        cases hs : specialKey (strToLower token) with
        | some k =>
          exact Or.inr (Or.inl ⟨rfl, k, rfl, by simp [normalizeKeyTokenCore, hm, hs]⟩)
        | none =>
          cases hf : isFunctionKeyToken (strToLower token) with
          | true =>
            exact Or.inr (Or.inr (Or.inl ⟨rfl, rfl, rfl, by simp [normalizeKeyTokenCore, hm, hs, hf]⟩))
          | false =>
            by_cases hl : (strToLower token).data.length = 1
            · have hl' : (strToLower token).length = 1 := hl
              exact Or.inr (Or.inr (Or.inr (Or.inl
                ⟨rfl, rfl, rfl, hl, by simp [normalizeKeyTokenCore, hm, hs, hf, hl']⟩)))
            · have hl' : ¬ (strToLower token).length = 1 := hl
              exact Or.inr (Or.inr (Or.inr (Or.inr
                ⟨rfl, rfl, rfl, hl, by simp [normalizeKeyTokenCore, hm, hs, hf, hl']⟩)))
  · have hmn := modifier_protoKey_none (strToLower token) hproto
    have hjs : normalizeKeyTokenJs token p
        = normalizeKeyTokenJsCore (if p == "darwin" then macModifier else winLinuxModifier)
            (strToLower token) := by
      cases hp : p == "darwin" <;> simp [normalizeKeyTokenJs, hp]
    rw [hjs]
    by_cases hp : (p == "darwin") = true
    · rw [if_pos hp]
      exact jsCore_inherited _ _ hproto hmn.1
    · rw [if_neg hp]
      exact jsCore_inherited _ _ hproto hmn.2

/-- Witness for the amended C10 at the unrecognized ASCII token `"weird"`:
the exact-`in` normalization returns the display string of the own-key
cascade. -/
theorem normalizeKeyToken_cascade_own_keys_witness :
    isAsciiString "weird" = true
    ∧ objectProtoKey (strToLower "weird") = false
    ∧ normalizeKeyTokenJs "weird" "linux" = KeyTokenResult.str (normalizeKeyToken "weird" "linux") := by
  refine ⟨by decide, by decide, ?_⟩
  exact (normalizeKeyToken_cascade_own_keys.1 "weird" "linux" (by decide) (by decide)).1

/-! ## Theorems: keybinding resolution -/

/-- The source's truthiness test on an entry's key coincides with the spec's
"key non-empty after trimming" reading. -/
theorem keyTruthy_eq_spec (e : KeybindingEntry) :
    keyTruthy e = (strTrim (e.key.getD "") != "") := by
  obtain ⟨key, command, whenClause⟩ := e
  cases key with
  | none => rfl
  | some k =>
    by_cases h : k = ""
    · subst h; rfl
    · simp [keyTruthy, bne_iff_ne, h]

/-- The source's user-rule search predicate coincides with the spec's. -/
theorem findFirstBindingForCommand_eq_spec (entries : List KeybindingEntry) (commandId : String) :
    findFirstBindingForCommand entries commandId = entries.find? (specUserRulePred commandId) := by
  unfold findFirstBindingForCommand
  congr 1
  funext e
  rw [specUserRulePred, keyTruthy_eq_spec]

/-- C5: label resolution takes the first user-override rule whose command
equals the id and whose key is non-empty after trimming, and only when no
such rule exists the first extension-default entry with equal command; in
particular, when a matching user override exists, the resolved label is
derived from the override's key. -/
theorem label_resolution_override_precedence :
    (∀ (user defaults : List KeybindingEntry) (commandId platform : String),
      (getCurrentKeybindingLabel (.ok user) defaults commandId platform).result
        = resolveLabelSpec user defaults commandId platform)
    ∧ (∀ (user defaults : List KeybindingEntry) (commandId platform : String)
        (entry : KeybindingEntry) (k : String),
      findFirstBindingForCommand user commandId = some entry →
      entry.key = some k →
      (getCurrentKeybindingLabel (.ok user) defaults commandId platform).result
        = some (prettyPrintKey (strTrim k) platform)) := by
  have main : ∀ (user defaults : List KeybindingEntry) (commandId platform : String),
      (getCurrentKeybindingLabel (.ok user) defaults commandId platform).result
        = resolveLabelSpec user defaults commandId platform := by
    intro user defaults commandId platform
    simp only [getCurrentKeybindingLabel, resolveLabelSpec]
    rw [findFirstBindingForCommand_eq_spec]
    cases hfu : user.find? (specUserRulePred commandId) with
    | some u =>
      have hpred := List.find?_some hfu
      rw [specUserRulePred] at hpred
      have hkey : strTrim (u.key.getD "") != "" := (Bool.and_eq_true _ _ |>.mp hpred).2
      cases hk : u.key with
      | none =>
        rw [hk] at hkey
        simp at hkey
        exact absurd rfl hkey
      | some k =>
        rw [hk] at hkey
        simp only [Option.getD_some] at hkey
        simp [hk, Option.bind, Option.or, bne_iff_ne] at hkey ⊢
        simp [hkey]
    | none =>
      cases hfd : defaults.find? (fun e => e.command == some commandId) with
      | some d =>
        cases hk : d.key with
        | none => simp [hk, Option.bind, Option.or]
        | some k =>
          by_cases ht : strTrim k = ""
          · simp [hk, Option.bind, Option.or, ht]
          · simp [hk, Option.bind, Option.or, ht]
      | none => simp [Option.bind, Option.or]
  refine ⟨main, fun user defaults commandId platform entry k hfind hkey => ?_⟩
  rw [main]
  rw [findFirstBindingForCommand_eq_spec] at hfind
  simp only [resolveLabelSpec, hfind, hkey, Option.getD_some]

/-- Witness for C5 at the repository's test data: the user override
`cmd+shift+i` beats the extension default `cmd+i` for the same command. -/
theorem label_resolution_override_precedence_witness :
    (getCurrentKeybindingLabel (.ok sampleUserRules) sampleDefaults
        "kilo-code.ghost.promptCodeSuggestion" "darwin").result = some "Cmd+Shift+I"
    ∧ some "Cmd+Shift+I" ≠ some (prettyPrintKey "cmd+i" "darwin") := by
  refine ⟨?_, by decide⟩
  have h := label_resolution_override_precedence.2 sampleUserRules sampleDefaults
    "kilo-code.ghost.promptCodeSuggestion" "darwin"
    { key := some "cmd+shift+i", command := some "kilo-code.ghost.promptCodeSuggestion" }
    "cmd+shift+i" (by decide) rfl
  rw [h]
  decide

/-- C6: resolving a command id with no matching user rule and no matching
default returns `undefined`, and the batch resolver maps each requested id,
independently and in order, to its individually-resolved label — so the
result's key list is exactly the requested id list. -/
theorem label_resolution_unknown_and_batch :
    (∀ (user defaults : List KeybindingEntry) (commandId platform : String),
      findFirstBindingForCommand user commandId = none →
      defaults.find? (fun e => e.command == some commandId) = none →
      (getCurrentKeybindingLabel (.ok user) defaults commandId platform).result = none)
    ∧ (∀ (userRead : Except String (List KeybindingEntry)) (defaults : List KeybindingEntry)
        (commandIds : List String) (platform : String),
      getKeybindingLabels userRead defaults commandIds platform
        = commandIds.map (fun commandId =>
            (commandId, (getCurrentKeybindingLabel userRead defaults commandId platform).result))
      ∧ (getKeybindingLabels userRead defaults commandIds platform).map Prod.fst = commandIds) := by
  constructor
  · intro user defaults commandId platform hu hd
    simp [getCurrentKeybindingLabel, hu, hd, Option.bind, Option.or]
  · intro userRead defaults commandIds platform
    refine ⟨rfl, ?_⟩
    simp only [getKeybindingLabels, List.map_map]
    have hfst : (Prod.fst ∘ fun commandId =>
        (commandId, (getCurrentKeybindingLabel userRead defaults commandId platform).result))
        = id := funext fun _ => rfl
    rw [hfst, List.map_id]

/-- Witness for C6 at the repository's test data: an unknown command resolves
to nothing, and a batch over a known and an unknown id keeps both ids as
keys. -/
theorem label_resolution_unknown_and_batch_witness :
    (getCurrentKeybindingLabel (.ok []) sampleDefaults "unknown.command" "darwin").result = none
    ∧ getKeybindingLabels (.ok []) sampleDefaults
        ["kilo-code.ghost.promptCodeSuggestion", "unknown.command"] "darwin"
      = [("kilo-code.ghost.promptCodeSuggestion", some "Cmd+I"), ("unknown.command", none)] := by
  refine ⟨label_resolution_unknown_and_batch.1 [] sampleDefaults "unknown.command" "darwin"
    (by decide) (by decide), ?_⟩
  decide

/-! ## Theorems: user keybinding file reading -/

/-- The candidate parsing loop equals the spec's reading of it: the first
candidate, in order, whose content parses to a list, with read failures,
parse failures and non-list values skipped, and exhaustion yielding the empty
rule set. -/
theorem firstArrayCandidate_eq_spec :
    ∀ candidates : List (Except String JsonValue),
      firstArrayCandidate candidates = firstParsedListSpec candidates := by
  intro candidates
  induction candidates with
  | nil => rfl
  | cons c cs ih =>
    cases c with
    | error e =>
      simpa [firstArrayCandidate, readJSON5File, firstParsedListSpec] using ih
    | ok v =>
      cases v with
      | arr rules => rfl
      | other =>
        simpa [firstArrayCandidate, readJSON5File, firstParsedListSpec] using ih

/-- When candidate discovery does not hit the unguarded sort-time stat (or
every such stat succeeds), `readUserKeybindings` behaves exactly as the claim
says: the first ordered candidate that parses to a list, else the empty rule
set. -/
theorem readUserKeybindings_ok_of_enumerate (cands ordered : List CandidateFile)
    (h : enumerateProfileKeybindings cands = .ok ordered) :
    readUserKeybindings true cands
      = .ok (firstParsedListSpec (ordered.map (fun c => c.content))) := by
  simp [readUserKeybindings, h, firstArrayCandidate_eq_spec]

/-- Witness for the guarded path at the two-profile candidates where both
stats succeed: the newer profile file wins and its rules are returned. -/
theorem readUserKeybindings_ok_of_enumerate_witness :
    enumerateProfileKeybindings okProfileCandidates
        = .ok [okProfileCandidates.get ⟨1, by decide⟩, okProfileCandidates.get ⟨0, by decide⟩]
    ∧ readUserKeybindings true okProfileCandidates = .ok sampleUserRules := by
  refine ⟨by decide, ?_⟩
  have h := readUserKeybindings_ok_of_enumerate okProfileCandidates
    [okProfileCandidates.get ⟨1, by decide⟩, okProfileCandidates.get ⟨0, by decide⟩] (by decide)
  rw [h]
  decide

/-- C7 (code bug): `readUserKeybindings` is claimed never to throw — and the
source absorbs every other file-system failure — but the sort-time `fs.stat`
awaited inside `Promise.all` (the modification-time ordering step) is the one
unguarded file-system access of `vscode-config.ts`: when a candidate file
disappears between the guarded existence stat and the sort stat, that
rejection propagates out of `readUserKeybindings`.  With the same two
candidates and no interleaving change, the function returns the first
list-parsing candidate as claimed. -/
theorem readUserKeybindings_stat_race_throws :
    readUserKeybindings true raceCandidates = .error "ENOENT"
    ∧ readUserKeybindings true okProfileCandidates = .ok sampleUserRules
    ∧ readUserKeybindings false raceCandidates = .ok [] := by
  refine ⟨by decide, by decide, by decide⟩

/-! ## Theorems: error handling of `getCurrentKeybindingLabel` -/

/-- C8 counterexample: on a failed override read, `getCurrentKeybindingLabel`
returns `undefined` even though an extension default exists for the command
— the result differs from the no-override-found result, so the
extension-default lookup does not decide the result as the claim states. -/
theorem catch_returns_undefined_counterexample :
    (getCurrentKeybindingLabel (.error "read failed") sampleDefaults
        "kilo-code.ghost.promptCodeSuggestion" "darwin").result = none
    ∧ (getCurrentKeybindingLabel (.ok []) sampleDefaults
        "kilo-code.ghost.promptCodeSuggestion" "darwin").result = some "Cmd+I"
    ∧ (getCurrentKeybindingLabel (.error "read failed") sampleDefaults
          "kilo-code.ghost.promptCodeSuggestion" "darwin").result
        ≠ (getCurrentKeybindingLabel (.ok []) sampleDefaults
            "kilo-code.ghost.promptCodeSuggestion" "darwin").result := by
  decide

/-- C8 (amended): any exception during override-file access inside
`getCurrentKeybindingLabel` is caught rather than propagated, a diagnostic is
emitted, and the function returns `undefined` — without consulting the
extension-default lookup. -/
theorem catch_returns_undefined (err : String) (defaults : List KeybindingEntry)
    (commandId platform : String) :
    getCurrentKeybindingLabel (.error err) defaults commandId platform
      = { result := none, warned := true } :=
  rfl

/-! ## Theorems: streaming response adapter -/

/-- Per-block translation never yields a usage chunk. -/
theorem processBlock_no_usage (b : ContentBlock) (c : ApiChunk)
    (h : processBlock b = some c) : isUsageChunk c = false := by
  cases b <;> simp [processBlock] at h <;> simp [← h, isUsageChunk]

/-- The counter `countUsageChunks` distributes over concatenation. -/
theorem countUsageChunks_append (xs ys : List ApiChunk) :
    countUsageChunks (xs ++ ys) = countUsageChunks xs + countUsageChunks ys := by
  simp [countUsageChunks, List.filter_append]

/-- One adapter step never yields a usage chunk, and its state update is the
one the spec describes: the init message rewrites the paid flag, assistant
messages add their usage to the counters, and a result message records its
cost. -/
theorem stepMessage_ok_spec (st st1 : StreamState) (m : CCMessage) (cs : List ApiChunk)
    (h : stepMessage st m = .ok (st1, cs)) :
    countUsageChunks cs = 0
    ∧ st1.isPaidUsage = computePaid st.isPaidUsage [m]
    ∧ st1.inputTokens = st.inputTokens + sumInputTokens [m]
    ∧ st1.outputTokens = st.outputTokens + sumOutputTokens [m]
    ∧ st1.cacheReadTokens = st.cacheReadTokens + sumCacheReadTokens [m]
    ∧ st1.cacheWriteTokens = st.cacheWriteTokens + sumCacheWriteTokens [m]
    ∧ st1.resultCost = lastResultCost st.resultCost [m] := by
  cases m with
  | raw s =>
    simp only [stepMessage, Except.ok.injEq, Prod.mk.injEq] at h
    obtain ⟨hst, hcs⟩ := h
    subst hst; subst hcs
    refine ⟨rfl, rfl, ?_, ?_, ?_, ?_, rfl⟩ <;>
      simp [sumInputTokens, sumOutputTokens, sumCacheReadTokens, sumCacheWriteTokens]
  | systemInit aks =>
    simp only [stepMessage, Except.ok.injEq, Prod.mk.injEq] at h
    obtain ⟨hst, hcs⟩ := h
    subst hst; subst hcs
    refine ⟨rfl, rfl, ?_, ?_, ?_, ?_, rfl⟩ <;>
      simp [sumInputTokens, sumOutputTokens, sumCacheReadTokens, sumCacheWriteTokens]
  | assistant content usage =>
    cases he : assistantErrorText content with
    | some e => simp [stepMessage, he] at h
    | none =>
      simp only [stepMessage, he, Except.ok.injEq, Prod.mk.injEq] at h
      obtain ⟨hst, hcs⟩ := h
      subst hst; subst hcs
      refine ⟨?_, rfl, rfl, rfl, rfl, rfl, rfl⟩
      simp only [countUsageChunks, List.length_eq_zero, List.filter_eq_nil_iff]
      intro c hc
      obtain ⟨b, _, hb⟩ := List.mem_filterMap.mp hc
      simp [processBlock_no_usage b c hb]
  | result cost =>
    simp only [stepMessage, Except.ok.injEq, Prod.mk.injEq] at h
    obtain ⟨hst, hcs⟩ := h
    subst hst; subst hcs
    refine ⟨rfl, rfl, ?_, ?_, ?_, ?_, rfl⟩ <;>
      simp [sumInputTokens, sumOutputTokens, sumCacheReadTokens, sumCacheWriteTokens]

/-- The state after a successful run of the whole stream is the spec-side
fold of the messages — paid flag, token sums, last result cost — and the
emitted chunks contain no usage chunk. -/
theorem runStream_ok_spec (msgs : List CCMessage) :
    ∀ (st0 st : StreamState) (cs : List ApiChunk),
    runStream st0 msgs = .ok (st, cs) →
    st.isPaidUsage = computePaid st0.isPaidUsage msgs
    ∧ st.inputTokens = st0.inputTokens + sumInputTokens msgs
    ∧ st.outputTokens = st0.outputTokens + sumOutputTokens msgs
    ∧ st.cacheReadTokens = st0.cacheReadTokens + sumCacheReadTokens msgs
    ∧ st.cacheWriteTokens = st0.cacheWriteTokens + sumCacheWriteTokens msgs
    ∧ st.resultCost = lastResultCost st0.resultCost msgs
    ∧ countUsageChunks cs = 0 := by
  induction msgs with
  | nil =>
    intro st0 st cs h
    simp only [runStream, Except.ok.injEq, Prod.mk.injEq] at h
    obtain ⟨hst, hcs⟩ := h
    subst hst; subst hcs
    simp [computePaid, sumInputTokens, sumOutputTokens, sumCacheReadTokens,
      sumCacheWriteTokens, lastResultCost, countUsageChunks]
  | cons m ms ih =>
    intro st0 st cs h
    simp only [runStream] at h
    cases hstep : stepMessage st0 m with
    | error e => simp [hstep] at h
    | ok pair =>
      obtain ⟨st1, cs1⟩ := pair
      rw [hstep] at h
      dsimp only at h
      cases hrun : runStream st1 ms with
      | error e => simp [hrun] at h
      | ok pair2 =>
        obtain ⟨st2, cs2⟩ := pair2
        rw [hrun] at h
        dsimp only at h
        simp only [Except.ok.injEq, Prod.mk.injEq] at h
        obtain ⟨hst, hcs⟩ := h
        subst hst; subst hcs
        obtain ⟨hc1, hp1, hi1, ho1, hr1, hw1, hrc1⟩ := stepMessage_ok_spec st0 st1 m cs1 hstep
        obtain ⟨hp2, hi2, ho2, hr2, hw2, hrc2, hc2⟩ := ih st1 st2 cs2 hrun
        refine ⟨?_, ?_, ?_, ?_, ?_, ?_, ?_⟩
        · rw [hp2, hp1]
          cases m <;> simp [computePaid]
        · rw [hi2, hi1]
          cases m <;> simp [sumInputTokens] <;> omega
        · rw [ho2, ho1]
          cases m <;> simp [sumOutputTokens] <;> omega
        · rw [hr2, hr1]
          cases m <;> simp [sumCacheReadTokens] <;> omega
        · rw [hw2, hw1]
          cases m <;> simp [sumCacheWriteTokens] <;> omega
        · rw [hrc2, hrc1]
          cases m <;> simp [lastResultCost]
        · rw [countUsageChunks_append, hc1, hc2]

/-- A stream without a terminal result message leaves the recorded result
cost untouched. -/
theorem lastResultCost_no_result (msgs : List CCMessage) :
    ∀ r : Option ℚ, (∀ m ∈ msgs, isResultMsg m = false) → lastResultCost r msgs = r := by
  induction msgs with
  | nil => intro r _; rfl
  | cons m ms ih =>
    intro r h
    have hm := h m (List.mem_cons_self m ms)
    have hms : ∀ x ∈ ms, isResultMsg x = false := fun x hx => h x (List.mem_cons_of_mem m hx)
    cases m with
    | result c => simp [isResultMsg] at hm
    | raw s => simpa [lastResultCost] using ih r hms
    | systemInit aks => simpa [lastResultCost] using ih r hms
    | assistant content usage => simpa [lastResultCost] using ih r hms

/-- The token-based cost is strictly positive as soon as some token was seen
and every price is strictly positive. -/
theorem costForTokens_pos (info : ModelInfo) (i o cr cw : ℕ)
    (hsum : 0 < i + o + cr + cw)
    (hpi : 0 < info.inputPrice) (hpo : 0 < info.outputPrice)
    (hpr : 0 < info.cacheReadsPrice) (hpw : 0 < info.cacheWritesPrice) :
    0 < costForTokens info i o cr cw := by
  unfold costForTokens
  apply div_pos _ (by norm_num)
  have h1 : 0 ≤ (i : ℚ) * info.inputPrice := mul_nonneg (by positivity) hpi.le
  have h2 : 0 ≤ (o : ℚ) * info.outputPrice := mul_nonneg (by positivity) hpo.le
  have h3 : 0 ≤ (cr : ℚ) * info.cacheReadsPrice := mul_nonneg (by positivity) hpr.le
  have h4 : 0 ≤ (cw : ℚ) * info.cacheWritesPrice := mul_nonneg (by positivity) hpw.le
  have hcases : 0 < i ∨ 0 < o ∨ 0 < cr ∨ 0 < cw := by omega
  rcases hcases with hi | ho | hcr | hcw
  · have : 0 < (i : ℚ) * info.inputPrice :=
      mul_pos (by exact_mod_cast hi) hpi
    linarith
  · have : 0 < (o : ℚ) * info.outputPrice :=
      mul_pos (by exact_mod_cast ho) hpo
    linarith
  · have : 0 < (cr : ℚ) * info.cacheReadsPrice :=
      mul_pos (by exact_mod_cast hcr) hpr
    linarith
  · have : 0 < (cw : ℚ) * info.cacheWritesPrice :=
      mul_pos (by exact_mod_cast hcw) hpw
    linarith

/-- The token-based cost of zero tokens is zero. -/
theorem costForTokens_zero (info : ModelInfo) : costForTokens info 0 0 0 0 = 0 := by
  simp [costForTokens]

/-- C1: for every stream that completes without a terminal result message,
`createMessage` still emits exactly one usage chunk, at stream end, carrying
the token totals accumulated across all assistant messages, with the total
cost computed from those accumulated tokens — strictly positive when usage is
paid, some token was seen and every price is positive, and zero when no
token was ever seen. -/
theorem createMessage_missing_result_usage (info : ModelInfo) (msgs : List CCMessage)
    (st : StreamState) (chunks : List ApiChunk)
    (hnr : ∀ m ∈ msgs, isResultMsg m = false)
    (hok : runStream initState msgs = .ok (st, chunks)) :
    createMessage info msgs
      = .ok (chunks ++ [ApiChunk.usage (sumInputTokens msgs) (sumOutputTokens msgs)
          (sumCacheReadTokens msgs) (sumCacheWriteTokens msgs)
          (if computePaid true msgs then
              costForTokens info (sumInputTokens msgs) (sumOutputTokens msgs)
                (sumCacheReadTokens msgs) (sumCacheWriteTokens msgs)
            else 0)])
    ∧ countUsageChunks chunks = 0
    ∧ (computePaid true msgs = true →
        0 < sumInputTokens msgs + sumOutputTokens msgs
            + sumCacheReadTokens msgs + sumCacheWriteTokens msgs →
        0 < info.inputPrice → 0 < info.outputPrice →
        0 < info.cacheReadsPrice → 0 < info.cacheWritesPrice →
        0 < (if computePaid true msgs then
              costForTokens info (sumInputTokens msgs) (sumOutputTokens msgs)
                (sumCacheReadTokens msgs) (sumCacheWriteTokens msgs)
            else 0))
    ∧ (sumInputTokens msgs = 0 → sumOutputTokens msgs = 0 →
        sumCacheReadTokens msgs = 0 → sumCacheWriteTokens msgs = 0 →
        (if computePaid true msgs then
            costForTokens info (sumInputTokens msgs) (sumOutputTokens msgs)
              (sumCacheReadTokens msgs) (sumCacheWriteTokens msgs)
          else 0) = 0) := by
  obtain ⟨hp, hi, ho, hr, hw, hrc, hcount⟩ := runStream_ok_spec msgs initState st chunks hok
  simp only [initState] at hp hi ho hr hw hrc
  rw [lastResultCost_no_result msgs none hnr] at hrc
  refine ⟨?_, hcount, ?_, ?_⟩
  · simp only [createMessage, hok]
    rw [hi, ho, hr, hw]
    simp only [Nat.zero_add]
    congr 1
    simp only [finalCost, hrc, hp]
    cases hpaid : computePaid true msgs with
    | true => simp [hi, ho, hr, hw]
    | false => simp
  · intro hpaid hsum hpi hpo hpr hpw
    rw [hpaid]
    simp only [if_pos]
    exact costForTokens_pos info _ _ _ _ hsum hpi hpo hpr hpw
  · intro h1 h2 h3 h4
    rw [h1, h2, h3, h4]
    cases computePaid true msgs <;> simp [costForTokens_zero]

/-- Witness for C1 at the test stream "cost calculated even when the result
chunk is missing": paid init plus one assistant message with tokens
`10/20/5/3` and no result message — the adapter emits the text chunk and one
usage chunk with the accumulated totals and a strictly positive computed
cost. -/
theorem createMessage_missing_result_usage_witness :
    createMessage claudeDefaultInfo [samplePaidInit, sampleAssistant]
      = .ok [ApiChunk.text "Hello there!",
             ApiChunk.usage 10 20 5 3 (costForTokens claudeDefaultInfo 10 20 5 3)]
    ∧ 0 < costForTokens claudeDefaultInfo 10 20 5 3 := by
  have h := createMessage_missing_result_usage claudeDefaultInfo [samplePaidInit, sampleAssistant]
    { isPaidUsage := true, inputTokens := 10, outputTokens := 20, cacheReadTokens := 5,
      cacheWriteTokens := 3, resultCost := none }
    [ApiChunk.text "Hello there!"] (by decide) rfl
  refine ⟨?_, ?_⟩
  · rw [h.1]
    rfl
  · have hpos := h.2.2.1 rfl (by decide) (by decide) (by decide)
      (div_pos (by decide) (by decide)) (div_pos (by decide) (by decide))
    simpa using hpos

/-- C2: for every stream whose system-init marker ends up equal to the
sentinel `"none"`, the emitted usage chunk carries total cost zero regardless
of any cost reported by a later result message; when the marker is not
`"none"`, usage is paid and the reported cost (or, with no result message,
the computed cost) is kept. -/
theorem createMessage_paid_flag_cost (info : ModelInfo) (msgs : List CCMessage)
    (st : StreamState) (chunks : List ApiChunk)
    (hok : runStream initState msgs = .ok (st, chunks)) :
    (computePaid true msgs = false →
      createMessage info msgs
        = .ok (chunks ++ [ApiChunk.usage st.inputTokens st.outputTokens
            st.cacheReadTokens st.cacheWriteTokens 0]))
    ∧ (computePaid true msgs = true →
        (∀ c : ℚ, st.resultCost = some c →
          createMessage info msgs
            = .ok (chunks ++ [ApiChunk.usage st.inputTokens st.outputTokens
                st.cacheReadTokens st.cacheWriteTokens c]))
        ∧ (st.resultCost = none →
          createMessage info msgs
            = .ok (chunks ++ [ApiChunk.usage st.inputTokens st.outputTokens
                st.cacheReadTokens st.cacheWriteTokens
                (costForTokens info st.inputTokens st.outputTokens
                  st.cacheReadTokens st.cacheWriteTokens)]))) := by
  obtain ⟨hp, _, _, _, _, _, _⟩ := runStream_ok_spec msgs initState st chunks hok
  simp only [initState] at hp
  constructor
  · intro hfree
    simp only [createMessage, hok]
    congr 2
    simp only [finalCost, hp, hfree]
    cases st.resultCost <;> simp
  · intro hpaid
    constructor
    · intro c hc
      simp only [createMessage, hok]
      congr 2
      simp [finalCost, hp, hpaid, hc]
    · intro hc
      simp only [createMessage, hok]
      congr 2
      simp [finalCost, hp, hpaid, hc]

/-- Witness for C2 at the subscription-usage test stream: init with marker
`"none"`, an assistant message with tokens `10/20`, and a result message
reporting `0.05` — the usage chunk still carries total cost `0`. -/
theorem createMessage_paid_flag_cost_witness :
    createMessage claudeDefaultInfo [sampleFreeInit, sampleAssistantNoCache, .result (5/100)]
      = .ok [ApiChunk.text "Hello there!", ApiChunk.usage 10 20 0 0 0] := by
  have h := createMessage_paid_flag_cost claudeDefaultInfo
    [sampleFreeInit, sampleAssistantNoCache, .result (5/100)]
    { isPaidUsage := false, inputTokens := 10, outputTokens := 20, cacheReadTokens := 0,
      cacheWriteTokens := 0, resultCost := some (5/100) }
    [ApiChunk.text "Hello there!"] rfl
  rw [h.1 rfl]
  rfl

/-- Running the concatenation of two message lists runs the first and, when
it succeeds, continues with the second from the reached state. -/
theorem runStream_append (xs : List CCMessage) :
    ∀ (st0 : StreamState) (ys : List CCMessage),
    runStream st0 (xs ++ ys)
      = match runStream st0 xs with
        | .error e => .error e
        | .ok (st1, cs) =>
          match runStream st1 ys with
          | .error e => .error e
          | .ok (st2, cs2) => .ok (st2, cs ++ cs2) := by
  induction xs with
  | nil =>
    intro st0 ys
    simp only [List.nil_append, runStream]
    cases runStream st0 ys with
    | error e => rfl
    | ok pair => cases pair; rfl
  | cons m ms ih =>
    intro st0 ys
    simp only [List.cons_append, runStream]
    cases stepMessage st0 m with
    | error e => rfl
    | ok pair =>
      obtain ⟨st1, cs1⟩ := pair
      dsimp only
      simp only [List.append_eq]
      rw [ih st1 ys]
      cases runStream st1 ms with
      | error e => rfl
      | ok pair2 =>
        obtain ⟨st2, cs2⟩ := pair2
        dsimp only
        cases runStream st2 ys with
        | error e => rfl
        | ok pair3 =>
          obtain ⟨st3, cs3⟩ := pair3
          simp

/-- String concatenation concatenates the underlying character lists. -/
theorem strData_append (a b : String) : (a ++ b).data = a.data ++ b.data := rfl

/-- C9: for every stream whose prefix processes cleanly and then carries an
assistant message whose first content block is text beginning with the
`"API Error"` marker, the consuming iteration rejects with a fatal error: the
error message contains the original text, and when that text contains the
`"Invalid model name"` substring the message also contains the localized
hint. -/
theorem createMessage_api_error_rejects (info : ModelInfo)
    (pre rest : List CCMessage) (blocks : List ContentBlock) (usage : UsageData)
    (s : String) (st : StreamState) (cs : List ApiChunk)
    (hpre : runStream initState pre = .ok (st, cs))
    (hfirst : blocks.head? = some (ContentBlock.text s))
    (hmarker : strStartsWith s apiErrorMarker = true) :
    ∃ e : String,
      createMessage info (pre ++ CCMessage.assistant blocks usage :: rest) = .error e
      ∧ s.data <:+: e.data
      ∧ (strContains s invalidModelNameText = true → invalidModelNameHint.data <:+: e.data) := by
  obtain ⟨tail, hblocks⟩ : ∃ tail, blocks = ContentBlock.text s :: tail := by
    cases blocks with
    | nil => simp at hfirst
    | cons b bs =>
      simp only [List.head?_cons, Option.some.injEq] at hfirst
      exact ⟨bs, by rw [hfirst]⟩
  subst hblocks
  have herr : assistantErrorText (ContentBlock.text s :: tail)
      = some (if strContains s invalidModelNameText then s ++ "\n" ++ invalidModelNameHint
              else s) := by
    simp only [assistantErrorText, hmarker, if_pos]
    split <;> rfl
  refine ⟨if strContains s invalidModelNameText then s ++ "\n" ++ invalidModelNameHint else s,
    ?_, ?_, ?_⟩
  · have hrun : runStream initState
        (pre ++ CCMessage.assistant (ContentBlock.text s :: tail) usage :: rest)
        = .error (if strContains s invalidModelNameText then s ++ "\n" ++ invalidModelNameHint
                  else s) := by
      rw [runStream_append, hpre]
      dsimp only
      simp only [runStream, stepMessage, herr]
    simp [createMessage, hrun]
  · cases hc : strContains s invalidModelNameText with
    | true =>
      rw [if_pos rfl]
      have hp : s.data <+: (s ++ "\n" ++ invalidModelNameHint).data :=
        ⟨("\n" ++ invalidModelNameHint).data, by simp [strData_append]⟩
      exact hp.isInfix
    | false =>
      rw [if_neg (by simp)]
  · intro hc
    rw [hc, if_pos rfl]
    have hs : invalidModelNameHint.data <:+ (s ++ "\n" ++ invalidModelNameHint).data :=
      ⟨(s ++ "\n").data, by simp [strData_append]⟩
    exact hs.isInfix

/-- Witness for C9 at the test's API-error assistant message (carrying the
invalid-model-name failure): the iteration rejects with an error containing
both the original text and the localized hint. -/
theorem createMessage_api_error_rejects_witness :
    ∃ e : String,
      createMessage claudeDefaultInfo
          [CCMessage.assistant [ContentBlock.text "API Error: 400 Invalid model name"] {}]
        = .error e
      ∧ "API Error: 400 Invalid model name".data <:+: e.data
      ∧ (strContains "API Error: 400 Invalid model name" invalidModelNameText = true →
          invalidModelNameHint.data <:+: e.data) := by
  have h := createMessage_api_error_rejects claudeDefaultInfo [] []
    [ContentBlock.text "API Error: 400 Invalid model name"] {}
    "API Error: 400 Invalid model name" initState [] rfl rfl (by decide)
  simpa using h

/-! ## Theorems: provider and model detection -/

/-- A successful association-list lookup returns one of the stored values. -/
theorem lookup_mem_snd {α β : Type} [BEq α] (m : α) (b : β) :
    ∀ l : List (α × β), l.lookup m = some b → b ∈ l.map Prod.snd := by
  intro l
  induction l with
  | nil => intro h; simp at h
  | cons kv es ih =>
    obtain ⟨k, v⟩ := kv
    intro h
    rw [List.lookup_cons] at h
    cases hk : m == k with
    | true =>
      rw [hk] at h
      simp only [Option.some.injEq] at h
      subst h
      simp
    | false =>
      rw [hk] at h
      exact List.mem_cons_of_mem _ (ih h)

/-- Every provider's model table is non-empty. -/
theorem providerModels_ne_nil (p : AltProvider) : providerModels p ≠ [] := by
  cases p <;> simp [providerModels, zaiModels, qwenModels, deepseekModels]

/-- With a detected alternative provider, `getModel` yields a record from
that provider's model table. -/
theorem getModel_detected_mem (s : ClaudeSettings) (p : AltProvider)
    (hd : detectProvider s = some p) :
    (getModel s none).2 ∈ (providerModels p).map Prod.snd := by
  unfold getModel
  rw [hd]
  dsimp only
  cases hcomb : (s.env.bind (fun x => x.anthropicModel)).bind
      (fun m => ((providerModels p).lookup m).map (fun x => (m, x))) with
  | none =>
    dsimp only
    cases hp : providerModels p with
    | nil => exact absurd hp (providerModels_ne_nil p)
    | cons a l => simp [hp]
  | some entry =>
    dsimp only
    obtain ⟨m, hm, hmap⟩ := Option.bind_eq_some.mp hcomb
    obtain ⟨info, hlk, hentry⟩ := Option.map_eq_some'.mp hmap
    subst hentry
    exact lookup_mem_snd m info (providerModels p) hlk

/-- C3: provider detection reads the base-URL field from the settings; with
no `env` section no alternative provider is detected and `getModel` yields
the fixed primary default model id and pricing; with an `env` section but no
base URL, still no provider is detected; with a base URL, the three
substrings `"z.ai"`, `"aliyuncs.com"`, `"deepseek.com"` are tested in that
order, the first match selecting that provider's model table, and no match
falling back to the primary defaults. -/
theorem detectProvider_matching_rule :
    (∀ s : ClaudeSettings, s.env = none →
      detectProvider s = none ∧ getModel s none = (claudeDefaultModelId, claudeDefaultInfo))
    ∧ (∀ (s : ClaudeSettings) (e : EnvSection), s.env = some e → e.anthropicBaseUrl = none →
      detectProvider s = none)
    ∧ (∀ (s : ClaudeSettings) (e : EnvSection) (url : String),
        s.env = some e → e.anthropicBaseUrl = some url →
        (strContains url "z.ai" = true →
          detectProvider s = some .zai
          ∧ (getModel s none).2 ∈ (providerModels .zai).map Prod.snd)
        ∧ (strContains url "z.ai" = false → strContains url "aliyuncs.com" = true →
          detectProvider s = some .qwenCode
          ∧ (getModel s none).2 ∈ (providerModels .qwenCode).map Prod.snd)
        ∧ (strContains url "z.ai" = false → strContains url "aliyuncs.com" = false →
            strContains url "deepseek.com" = true →
          detectProvider s = some .deepseek
          ∧ (getModel s none).2 ∈ (providerModels .deepseek).map Prod.snd)
        ∧ (strContains url "z.ai" = false → strContains url "aliyuncs.com" = false →
            strContains url "deepseek.com" = false →
          detectProvider s = none
          ∧ getModel s none = (claudeDefaultModelId, claudeDefaultInfo))) := by
  refine ⟨?_, ?_, ?_⟩
  · intro s henv
    obtain ⟨env⟩ := s
    cases henv
    exact ⟨rfl, rfl⟩
  · intro s e henv hurl
    obtain ⟨env⟩ := s
    cases henv
    simp [detectProvider, hurl]
  · intro s e url henv hurl
    obtain ⟨env⟩ := s
    cases henv
    have hdp : detectProvider { env := some e }
        = (if strContains url "z.ai" then some AltProvider.zai
           else if strContains url "aliyuncs.com" then some AltProvider.qwenCode
           else if strContains url "deepseek.com" then some AltProvider.deepseek
           else none) := by
      simp [detectProvider, hurl]
    refine ⟨?_, ?_, ?_, ?_⟩
    · intro h1
      have hd : detectProvider { env := some e } = some AltProvider.zai := by
        rw [hdp, if_pos h1]
      exact ⟨hd, getModel_detected_mem _ _ hd⟩
    · intro h1 h2
      have hd : detectProvider { env := some e } = some AltProvider.qwenCode := by
        rw [hdp, if_neg (by simp [h1]), if_pos h2]
      exact ⟨hd, getModel_detected_mem _ _ hd⟩
    · intro h1 h2 h3
      have hd : detectProvider { env := some e } = some AltProvider.deepseek := by
        rw [hdp, if_neg (by simp [h1]), if_neg (by simp [h2]), if_pos h3]
      exact ⟨hd, getModel_detected_mem _ _ hd⟩
    · intro h1 h2 h3
      have hd : detectProvider { env := some e } = none := by
        rw [hdp, if_neg (by simp [h1]), if_neg (by simp [h2]), if_neg (by simp [h3])]
      refine ⟨hd, ?_⟩
      simp only [getModel, hd]
      rfl

/-- Witness for C3 at the test configurations: no `env` section falls back to
the primary default, and a Z.ai base URL selects the Z.ai provider. -/
theorem detectProvider_matching_rule_witness :
    (detectProvider { env := none } = none
      ∧ getModel { env := none } none = (claudeDefaultModelId, claudeDefaultInfo))
    ∧ detectProvider sampleZaiSettings = some AltProvider.zai := by
  refine ⟨detectProvider_matching_rule.1 { env := none } rfl, ?_⟩
  exact (detectProvider_matching_rule.2.2 sampleZaiSettings sampleZaiEnv
    "https://api.z.ai/api/anthropic" rfl rfl |>.1 (by decide)).1

end Kilocode
